import Mathlib

/-!
Verification of the selection-and-aggregation core of the Superstore
dashboard (script.js and its earlier variants).

The repository holds a D3 dashboard in two main variants:

* the *coordinated* variant (`script.js`, first part): global mutable
  selections `selectedCategory : Option String` (null = all) and
  `selectedState : Option String`, toggled by a bar click and a map click,
  with `applyFilters()` re-rendering the bar, line and scatter views from
  the shared globals;
* the *checkbox* variant (`script.js`, second part): a
  `selectedCategories` set seeded with the three known categories, an
  input-change handler adding/removing labels, and `updateAllCharts()`
  passing the same filtered array to every chart.

Records are modelled with exact rationals in place of JS numbers; `d3.rollup`
is modelled as grouping by first appearance of the key, and the stable JS
`Array.prototype.sort` as Lean's stable insertion sort.
-/

namespace Dashboard

/-- A parsed Superstore row as the charts consume it (`Sales`, `Profit`,
`Quantity`, `Discount` converted with unary `+`, `OrderDate` bucketed by
`d3.timeMonth` into `OrderMonth`). -/
structure Record where
  Category : String
  State : String
  Sales : ℚ
  Profit : ℚ
  Quantity : ℚ
  Discount : ℚ
  OrderMonth : Int
deriving DecidableEq

/-- The keys of `d3.rollup`, in first-appearance order (JS `Map` insertion
order). -/
def keysBy {κ : Type} [DecidableEq κ] (key : Record → κ) : List Record → List κ
  | [] => []
  | r :: rs => key r :: (keysBy key rs).filter (fun k => decide (k ≠ key r))

/-- `d3.sum(v, d => d.Sales)`. -/
def sumSales (l : List Record) : ℚ := (l.map Record.Sales).sum

/-- `d3.rollup(data, v => d3.sum(v, d => d.Sales), d => key(d))`, as the list
of (key, summed sales) pairs in key first-appearance order. -/
def rollupSales {κ : Type} [DecidableEq κ] (key : Record → κ) (l : List Record) :
    List (κ × ℚ) :=
  (keysBy key l).map (fun k => (k, sumSales (l.filter (fun r => decide (key r = k)))))

/-- The comparator `(a, b) => b.sales - a.sales` viewed as a relation:
`a` may come before `b` when `b`'s value is at most `a`'s. -/
def salesGE (a b : String × ℚ) : Prop := b.2 ≤ a.2

instance : DecidableRel salesGE := fun a b => inferInstanceAs (Decidable (b.2 ≤ a.2))

instance : IsTotal (String × ℚ) salesGE := ⟨fun a b => le_total b.2 a.2⟩

instance : IsTrans (String × ℚ) salesGE := ⟨fun _ _ _ h1 h2 => le_trans h2 h1⟩

/-- JS `Array.prototype.sort((a, b) => b.sales - a.sales)`: a stable sort,
descending by summed value. -/
def sortDesc (l : List (String × ℚ)) : List (String × ℚ) :=
  List.insertionSort salesGE l

/-- The category aggregate both bar-chart variants draw
(`createCategoryBarChart` / `categorySalesChart`): rollup by `Category`,
then the descending stable sort. -/
def categoryAgg (l : List Record) : List (String × ℚ) :=
  sortDesc (rollupSales Record.Category l)

/-- Comparator `(a, b) => a.date - b.date` for the monthly trend. -/
def monthLE (a b : Int × ℚ) : Prop := a.1 ≤ b.1

instance : DecidableRel monthLE := fun a b => inferInstanceAs (Decidable (a.1 ≤ b.1))

instance : IsTotal (Int × ℚ) monthLE := ⟨fun a b => le_total a.1 b.1⟩

instance : IsTrans (Int × ℚ) monthLE := ⟨fun _ _ _ h1 h2 => le_trans h1 h2⟩

/-- The monthly aggregate (`createMonthlySalesLineChart`): rollup by month,
sorted ascending by month. -/
def monthlyAgg (l : List Record) : List (Int × ℚ) :=
  List.insertionSort monthLE (rollupSales Record.OrderMonth l)

/-- The aggregate `regionalSalesMap` draws (`salesByState`): rollup by
`State`, in first-appearance order (no sort in the source). -/
def stateRollup (l : List Record) : List (String × ℚ) :=
  rollupSales Record.State l

/-! ### The coordinated variant's filter state and events -/

/-- The two shared selection globals of the coordinated variant:
`selectedCategory` (null = all categories) and `selectedState`
(null = all states). -/
structure DashState where
  selectedCategory : Option String
  selectedState : Option String
deriving DecidableEq

/-- Both globals start as `null`. -/
def initState : DashState := ⟨none, none⟩

/-- The selection gestures: a click on a category bar, a click on a state. -/
inductive Event where
  | barClick (label : String)
  | stateClick (name : String)
deriving DecidableEq

/-- The toggle both click handlers use: deselect when the clicked label is
the current selection, otherwise select it. -/
def toggleOpt (x : String) (o : Option String) : Option String :=
  if o = some x then none else some x

/-- The state mutation each click handler performs before it calls
`applyFilters()`. -/
def step : Event → DashState → DashState
  | Event.barClick c, st => { st with selectedCategory := toggleOpt c st.selectedCategory }
  | Event.stateClick s, st => { st with selectedState := toggleOpt s st.selectedState }

/-- `if (selectedCategory) filteredData = filteredData.filter(d => d.Category === selectedCategory)`. -/
def filterByCategory (st : DashState) (l : List Record) : List Record :=
  match st.selectedCategory with
  | none => l
  | some c => l.filter (fun r => decide (r.Category = c))

/-- `if (selectedState) filteredData = filteredData.filter(d => d.State === selectedState)`. -/
def filterByState (st : DashState) (l : List Record) : List Record :=
  match st.selectedState with
  | none => l
  | some s => l.filter (fun r => decide (r.State = s))

/-- The scatter's plotted records (`createSalesVsProfitScatter`): category
filter, then state filter, then `filter(d => d.Sales > 0)` for the log
scale. -/
def scatterData (data : List Record) (st : DashState) : List Record :=
  (filterByState st (filterByCategory st data)).filter (fun r => decide (0 < r.Sales))

/-- What `createCategoryBarChart` renders: global per-category totals, the
selected category used only for bar opacity, and, when a state is selected,
an overlay of that state's per-category contribution. -/
structure BarView where
  bars : List (String × ℚ)
  highlight : Option String
  overlay : Option (List (String × ℚ))
deriving DecidableEq

/-- `createCategoryBarChart` as a function of the dataset and the shared
selections. The bars aggregate over the whole dataset. -/
def barView (data : List Record) (st : DashState) : BarView :=
  { bars := categoryAgg data
    highlight := st.selectedCategory
    overlay := st.selectedState.map
      (fun s => rollupSales Record.Category (data.filter (fun r => decide (r.State = s)))) }

/-- What `createMonthlySalesLineChart` renders: the monthly aggregate of the
state-filtered data, with the title showing the selected state. -/
structure LineView where
  stateTitle : Option String
  points : List (Int × ℚ)
deriving DecidableEq

/-- `createMonthlySalesLineChart` as a function of the dataset and the
shared selections. -/
def lineView (data : List Record) (st : DashState) : LineView :=
  { stateTitle := st.selectedState
    points := monthlyAgg (filterByState st data) }

/-- The set of views `applyFilters()` redraws on every selection change. -/
structure Snapshot where
  bar : BarView
  line : LineView
  scatter : List Record
deriving DecidableEq

/-- `applyFilters()`: recompute the bar, line and scatter views from the
current shared selections. -/
def applyFiltersViews (data : List Record) (st : DashState) : Snapshot :=
  { bar := barView data st
    line := lineView data st
    scatter := scatterData data st }

/-- The observable state of the page: the shared selections, the selection
the map's styling currently shows, and the views `applyFilters` last drew. -/
structure World where
  state : DashState
  mapStyleSel : Option String
  views : Snapshot
deriving DecidableEq

/-- The page after load: both selections null, all views drawn once, the map
styled with no selection. -/
def initWorld (data : List Record) : World :=
  { state := initState
    mapStyleSel := none
    views := applyFiltersViews data initState }

/-- One click handler run to completion: mutate the selection, re-run
`applyFilters()`; the state-click handler additionally restyles the map
(a bar click leaves the map's DOM untouched). -/
def handle (data : List Record) (w : World) (e : Event) : World :=
  match e with
  | Event.barClick c =>
      let st := step (Event.barClick c) w.state
      { state := st, mapStyleSel := w.mapStyleSel, views := applyFiltersViews data st }
  | Event.stateClick s =>
      let st := step (Event.stateClick s) w.state
      { state := st, mapStyleSel := st.selectedState, views := applyFiltersViews data st }

/-- The page after a sequence of gestures. -/
def runWorld (data : List Record) (evs : List Event) : World :=
  evs.foldl (handle data) (initWorld data)

/-- The selection state alone after a sequence of gestures. -/
def runState (evs : List Event) : DashState :=
  evs.foldl (fun s e => step e s) initState

/-- Consistency of the page: every drawn view is the one `applyFilters()`
computes from the current shared selections, and the map's styling shows
the current selected state — no view reflects a stale selection. -/
def consistentWorld (data : List Record) (w : World) : Prop :=
  w.views = applyFiltersViews data w.state ∧ w.mapStyleSel = w.state.selectedState

/-! ### The checkbox variant -/

/-- The checkbox variant's `selectedCategories` set: the change handler adds
a label when its box becomes checked and deletes it when unchecked, so one
click toggles membership. -/
def toggleSet (x : String) (s : Finset String) : Finset String :=
  if x ∈ s then s.erase x else insert x s

/-- `updateAllCharts()`'s `data.filter(d => selectedCategories.has(d.Category))`,
the one filtered array handed to every chart of the checkbox variant. -/
def chkFilter (sel : Finset String) (data : List Record) : List Record :=
  data.filter (fun r => decide (r.Category ∈ sel))

/-! ### Loading -/

/-- A raw CSV row after the loader's conversions: each numeric field holds
`none` when unary `+` produced NaN, and `dateOK` records whether
`new Date(d["Order Date"])` parsed (`!isNaN(d.OrderDate)`). -/
structure RawRow where
  sales : Option ℚ
  profit : Option ℚ
  quantity : Option ℚ
  discount : Option ℚ
  dateOK : Bool
deriving DecidableEq

/-- The load pipeline of `script.js`:
`rawData.map(convert).filter(d => !isNaN(d.OrderDate))` — only the date is
validated. -/
def loadClean (rows : List RawRow) : List RawRow :=
  rows.filter (fun r => r.dateOK)

/-- The difference between the logged raw and kept row counts. -/
def rejectedCount (rows : List RawRow) : Nat :=
  rows.length - (loadClean rows).length

/-- Modelled from the spec: the rejection condition §4.1 claims — date
unparseable or any required numeric field non-numeric. Stated for
comparison with `loadClean`, which only checks the date. -/
def specRejects (r : RawRow) : Bool :=
  !r.dateOK || r.sales.isNone || r.profit.isNone || r.quantity.isNone || r.discount.isNone

/-! ### The category universe -/

/-- The three Superstore categories, as hardcoded in the charts' color
scales and legends. -/
def categoryUniverse : Finset String :=
  {"Furniture", "Office Supplies", "Technology"}

/-- The categories visible under a coordinated-variant selection: all of
them when `selectedCategory` is null, otherwise just the selected one. -/
def activeCatsOpt : Option String → Finset String
  | none => categoryUniverse
  | some c => categoryUniverse.filter (fun x => x = c)

/-- The visible-category set of a coordinated-variant state. -/
def activeCats (st : DashState) : Finset String :=
  activeCatsOpt st.selectedCategory

/-! ### The ordering the spec claims for the category aggregate -/

/-- Lexicographic comparison of char lists by code point (ordinary string
order), written so the kernel can evaluate it. -/
def charListLt : List Char → List Char → Bool
  | [], [] => false
  | [], _ :: _ => true
  | _ :: _, [] => false
  | a :: as, b :: bs =>
      decide (a.toNat < b.toNat) || (decide (a = b) && charListLt as bs)

/-- Ordinary lexicographic order on labels. -/
def labelLt (a b : String) : Bool := charListLt a.data b.data

/-- Modelled from the spec: §4.3's claimed order for the category dimension —
descending by summed value, ties broken by category label ascending. -/
def claimedCatOrder (out : List (String × ℚ)) : Prop :=
  out.Pairwise (fun a b => b.2 < a.2 ∨ (a.2 = b.2 ∧ labelLt a.1 b.1 = true))

instance : DecidablePred claimedCatOrder := fun out =>
  inferInstanceAs (Decidable (out.Pairwise _))

/-! ### Example data -/

/-- A record with the fields the aggregation claims exercise. -/
def mkRec (c s : String) (sales : ℚ) : Record :=
  { Category := c, State := s, Sales := sales, Profit := 0, Quantity := 1
    Discount := 0, OrderMonth := 0 }

/-- The spec's three-record scenario dataset: (A, X, 100), (B, X, 50),
(A, Y, 25). -/
def exData : List Record :=
  [mkRec "A" "X" 100, mkRec "B" "X" 50, mkRec "A" "Y" 25]

/-- Two categories with equal totals, "B" appearing first in the data. -/
def exTie : List Record :=
  [mkRec "B" "X" 10, mkRec "A" "X" 10]

/-- A raw row whose date parses but whose sales field is non-numeric. -/
def badRow : RawRow :=
  { sales := none, profit := some 5, quantity := some 1, discount := some 0
    dateOK := true }

/-! ## Aggregation: group sums total the filtered set -/

theorem sumSales_cons (r : Record) (l : List Record) :
    sumSales (r :: l) = r.Sales + sumSales l := by
  simp [sumSales]

theorem sum_map_add {κ : Type} (f g : κ → ℚ) (ks : List κ) :
    (ks.map (fun k => f k + g k)).sum = (ks.map f).sum + (ks.map g).sum := by
  induction ks with
  | nil => simp
  | cons k ks ih => simp only [List.map_cons, List.sum_cons, ih]; ring

theorem sum_map_ite_zero {κ : Type} [DecidableEq κ] (k0 : κ) (x : ℚ) (ks : List κ)
    (h : k0 ∉ ks) : (ks.map (fun k => if k0 = k then x else 0)).sum = 0 := by
  induction ks with
  | nil => simp
  | cons k ks ih =>
      simp only [List.mem_cons, not_or] at h
      simp [h.1, ih h.2]

theorem sum_map_ite {κ : Type} [DecidableEq κ] (k0 : κ) (x : ℚ) (ks : List κ)
    (hnd : ks.Nodup) (hmem : k0 ∈ ks) :
    (ks.map (fun k => if k0 = k then x else 0)).sum = x := by
  induction ks with
  | nil => cases hmem
  | cons k ks ih =>
      rw [List.nodup_cons] at hnd
      rcases List.mem_cons.mp hmem with h | h
      · subst h
        simp [sum_map_ite_zero k0 x ks hnd.1]
      · have hne : k0 ≠ k := fun e => hnd.1 (e ▸ h)
        simp [hne, ih hnd.2 h]

theorem keysBy_nodup {κ : Type} [DecidableEq κ] (key : Record → κ) :
    ∀ l : List Record, (keysBy key l).Nodup
  | [] => List.nodup_nil
  | r :: rs => by
      rw [keysBy, List.nodup_cons]
      constructor
      · intro hmem
        have h2 := (List.mem_filter.mp hmem).2
        simp at h2
      · exact (keysBy_nodup key rs).filter _

theorem mem_keysBy {κ : Type} [DecidableEq κ] (key : Record → κ)
    {l : List Record} {r : Record} (h : r ∈ l) : key r ∈ keysBy key l := by
  induction l with
  | nil => cases h
  | cons a l ih =>
      rw [keysBy]
      rcases List.mem_cons.mp h with h | h
      · subst h; exact List.mem_cons_self _ _
      · by_cases he : key r = key a
        · rw [he]; exact List.mem_cons_self _ _
        · exact List.mem_cons_of_mem _ (List.mem_filter.mpr ⟨ih h, by simp [he]⟩)

theorem sum_groups {κ : Type} [DecidableEq κ] (key : Record → κ) :
    ∀ (l : List Record) (ks : List κ), ks.Nodup → (∀ r ∈ l, key r ∈ ks) →
      (ks.map (fun k => sumSales (l.filter (fun r => decide (key r = k))))).sum = sumSales l
  | [], ks, _, _ => by simp [sumSales]
  | r :: rs, ks, hnd, hcov => by
      have hstep : ∀ k ∈ ks,
          sumSales ((r :: rs).filter (fun x => decide (key x = k)))
            = (if key r = k then r.Sales else 0)
              + sumSales (rs.filter (fun x => decide (key x = k))) := by
        intro k _
        by_cases h : key r = k
        · simp [List.filter_cons, h, sumSales_cons]
        · simp [List.filter_cons, h]
      rw [List.map_congr_left hstep, sum_map_add,
        sum_map_ite (key r) r.Sales ks hnd (hcov r (List.mem_cons_self r rs)),
        sum_groups key rs ks hnd (fun x hx => hcov x (List.mem_cons_of_mem r hx)),
        sumSales_cons]

theorem sum_rollupSales {κ : Type} [DecidableEq κ] (key : Record → κ) (l : List Record) :
    ((rollupSales key l).map Prod.snd).sum = sumSales l := by
  rw [rollupSales, List.map_map]
  exact sum_groups key l (keysBy key l) (keysBy_nodup key l) (fun r hr => mem_keysBy key hr)

/-- C3: for every dataset and every checkbox filter state, the sum of the
category aggregate's values equals the sum of the per-state aggregate's
values computed from the same filtered record set. -/
theorem categorySum_eq_regionSum (data : List Record) (sel : Finset String) :
    ((categoryAgg (chkFilter sel data)).map Prod.snd).sum
      = ((stateRollup (chkFilter sel data)).map Prod.snd).sum := by
  have hperm : List.Perm (categoryAgg (chkFilter sel data))
      (rollupSales Record.Category (chkFilter sel data)) :=
    List.perm_insertionSort _ _
  rw [(hperm.map Prod.snd).sum_eq, stateRollup, sum_rollupSales, sum_rollupSales]


/-! ## Stability of the descending sort -/

theorem filter_orderedInsert_val (v : ℚ) (x : String × ℚ) :
    ∀ l : List (String × ℚ),
      (List.orderedInsert salesGE x l).filter (fun p => decide (p.2 = v))
        = if x.2 = v then x :: l.filter (fun p => decide (p.2 = v))
          else l.filter (fun p => decide (p.2 = v))
  | [] => by by_cases h : x.2 = v <;> simp [List.orderedInsert, h]
  | y :: ys => by
      by_cases hxy : salesGE x y
      · by_cases hx : x.2 = v <;>
          simp [List.orderedInsert, hxy, List.filter_cons, hx]
      · have hlt : x.2 < y.2 := not_le.mp hxy
        have ih := filter_orderedInsert_val v x ys
        by_cases hy : y.2 = v
        · have hx : ¬ x.2 = v := fun hx => absurd (hx.trans hy.symm) (ne_of_lt hlt)
          simp [List.orderedInsert, hxy, List.filter_cons, hy, hx, ih]
        · by_cases hx : x.2 = v <;>
            simp [List.orderedInsert, hxy, List.filter_cons, hy, hx, ih]

theorem filter_sortDesc (v : ℚ) :
    ∀ l : List (String × ℚ),
      (sortDesc l).filter (fun p => decide (p.2 = v)) = l.filter (fun p => decide (p.2 = v))
  | [] => rfl
  | x :: xs => by
      have ih := filter_sortDesc v xs
      rw [sortDesc, List.insertionSort, filter_orderedInsert_val]
      rw [sortDesc] at ih
      by_cases hx : x.2 = v <;> simp [List.filter_cons, hx, ih]

/-- C8 counterexample: on a dataset where categories "B" and "A" have the
equal total 10 and "B" appears first, the category aggregate keeps "B"
before "A", so equal-valued categories are not emitted in ascending label
order as the claim states. -/
theorem category_order_tie_cex :
    categoryAgg exTie = [("B", 10), ("A", 10)]
      ∧ decide (claimedCatOrder [("B", (10 : ℚ)), ("A", 10)]) = false := by
  constructor
  · simp [categoryAgg, sortDesc, rollupSales, keysBy, sumSales, exTie, mkRec,
      List.insertionSort, List.orderedInsert, salesGE]
  · rfl

/-- C8 (amended): the category aggregate is ordered descending by summed
value, and categories with equal summed values keep the rollup's
first-appearance order (the sort is stable) rather than ascending label
order. -/
theorem categoryAgg_desc_stable (l : List Record) (v : ℚ) :
    List.Pairwise salesGE (categoryAgg l)
      ∧ (categoryAgg l).filter (fun p => decide (p.2 = v))
          = (rollupSales Record.Category l).filter (fun p => decide (p.2 = v)) :=
  ⟨List.sorted_insertionSort salesGE _, filter_sortDesc v _⟩

/-! ## The scatter's record set -/

/-- C10: a record is plotted by the sales-vs-profit scatter iff it survives
the category and state filters and its sales amount is strictly positive;
records with zero or negative sales are excluded even when they satisfy the
active filters. -/
theorem scatter_excludes_nonpositive_sales (data : List Record) (st : DashState) (r : Record) :
    r ∈ scatterData data st
      ↔ r ∈ filterByState st (filterByCategory st data) ∧ 0 < r.Sales := by
  simp [scatterData, List.mem_filter]

/-! ## Snapshot consistency of the coordinated variant -/

theorem handle_consistent (data : List Record) (w : World) (e : Event)
    (h : consistentWorld data w) : consistentWorld data (handle data w e) := by
  cases e with
  | barClick c => exact ⟨rfl, h.2⟩
  | stateClick s => exact ⟨rfl, rfl⟩

theorem foldl_handle_consistent (data : List Record) :
    ∀ (evs : List Event) (w : World), consistentWorld data w
      → consistentWorld data (evs.foldl (handle data) w)
  | [], _, h => h
  | e :: evs, w, h => foldl_handle_consistent data evs _ (handle_consistent data w e h)

/-- C2: after any sequence of selection gestures, every view drawn on the
page is the one computed by `applyFilters()` from the current shared
selections, and the map's styling shows the current selected state — no
observable point leaves two views reflecting different filter states. -/
theorem snapshot_consistent (data : List Record) (evs : List Event) :
    consistentWorld data (runWorld data evs) :=
  foldl_handle_consistent data evs _ ⟨rfl, rfl⟩

/-! ## The selection toggles -/

/-- C7: clicking a state that is already selected deselects it (the active
region becomes none); clicking any other state while a different state or
none is selected makes it the active region; the category selection is
untouched. -/
theorem setRegion_toggle_semantics (st : DashState) (R : String) :
    ((st.selectedState = some R → (step (Event.stateClick R) st).selectedState = none)
      ∧ (st.selectedState ≠ some R → (step (Event.stateClick R) st).selectedState = some R))
      ∧ (step (Event.stateClick R) st).selectedCategory = st.selectedCategory := by
  refine ⟨⟨?_, ?_⟩, rfl⟩
  · intro h; simp [step, toggleOpt, h]
  · intro h; simp [step, toggleOpt, h]

/-- C7 witness: from the initial state, clicking "Texas" selects it. -/
theorem setRegion_toggle_semantics_witness :
    (step (Event.stateClick "Texas") initState).selectedState = some "Texas" :=
  (setRegion_toggle_semantics initState "Texas").1.2 (by simp [initState])

/-- C5 counterexample: "Zzz" is not a known category, yet the bar-click
toggle accepts it — the state changes to `selectedCategory = some "Zzz"`
and no invalid-selection signal exists in the handler. -/
theorem unknown_label_accepted_cex :
    decide (("Zzz" : String) ∈ categoryUniverse) = false
      ∧ step (Event.barClick "Zzz") initState
          = { selectedCategory := some "Zzz", selectedState := none }
      ∧ decide (step (Event.barClick "Zzz") initState = initState) = false :=
  ⟨rfl, rfl, rfl⟩

theorem toggleOpt_ne (x : String) (o : Option String) : toggleOpt x o ≠ o := by
  unfold toggleOpt
  split
  · rename_i h; rw [h]; simp
  · rename_i h; exact fun e => h e.symm

/-- C5 (amended): the click handlers validate nothing — every bar click and
every state click, with any label whatsoever, mutates the filter state (to
the toggled value); no rejection path exists. -/
theorem clicks_always_mutate (st : DashState) (c s : String) :
    decide (step (Event.barClick c) st = st) = false
      ∧ decide (step (Event.stateClick s) st = st) = false := by
  constructor
  · rw [decide_eq_false_iff_not]
    intro h
    exact toggleOpt_ne c st.selectedCategory (congrArg DashState.selectedCategory h)
  · rw [decide_eq_false_iff_not]
    intro h
    exact toggleOpt_ne s st.selectedState (congrArg DashState.selectedState h)

/-- C6 counterexample: with "Furniture" selected, clicking the "Technology"
bar twice leaves no category selected — the visible-category set ends as
the full universe, not the prior singleton {"Furniture"}. -/
theorem double_toggle_not_restored_cex :
    toggleOpt "Technology" (toggleOpt "Technology" (some "Furniture")) = none
      ∧ decide (activeCatsOpt none = activeCatsOpt (some "Furniture")) = false :=
  ⟨rfl, rfl⟩

/-- C6 (amended): under the checkbox variant's set-based toggle, toggling a
label twice restores `selectedCategories` exactly; under the coordinated
variant's single-select bar-click toggle, a double click on `x` restores
the prior selection only when `x` or nothing was selected — from any other
selection it clears the selection instead. -/
theorem double_toggle_characterization (sel : Finset String) (o : Option String) (x : String) :
    toggleSet x (toggleSet x sel) = sel
      ∧ toggleOpt x (toggleOpt x o) = (if o = some x ∨ o = none then o else none) := by
  constructor
  · by_cases h : x ∈ sel
    · have h1 : toggleSet x sel = sel.erase x := by rw [toggleSet, if_pos h]
      rw [h1, toggleSet, if_neg (Finset.not_mem_erase x sel), Finset.insert_erase h]
    · have h1 : toggleSet x sel = insert x sel := by rw [toggleSet, if_neg h]
      rw [h1, toggleSet, if_pos (Finset.mem_insert_self x sel), Finset.erase_insert h]
  · cases o with
    | none => simp [toggleOpt]
    | some y =>
        by_cases h : y = x
        · subst h; simp [toggleOpt]
        · have hne : ¬ (some y = some x) := by simpa using h
          simp [toggleOpt, hne, h]

/-! ## Reachable category selections -/

/-- C9: after any sequence of gestures the coordinated variant's category
selection is null or a single label, so the visible-category set is the
full three-element universe or at most a singleton — a state with exactly
two of the three known categories active is unreachable. -/
theorem two_active_categories_unreachable (evs : List Event) :
    ((runState evs).selectedCategory = none ∨ ∃ c, (runState evs).selectedCategory = some c)
      ∧ (activeCats (runState evs)).card ≠ 2 := by
  constructor
  · cases h : (runState evs).selectedCategory with
    | none => exact Or.inl rfl
    | some c => exact Or.inr ⟨c, rfl⟩
  · cases h : (runState evs).selectedCategory with
    | none =>
        rw [activeCats, h]
        decide
    | some c =>
        rw [activeCats, h]
        show (categoryUniverse.filter (fun x => x = c)).card ≠ 2
        have hsub : categoryUniverse.filter (fun x => x = c) ⊆ {c} := fun x hx =>
          Finset.mem_singleton.mpr (Finset.mem_filter.mp hx).2
        have hle := Finset.card_le_card hsub
        rw [Finset.card_singleton] at hle
        omega

/-! ## Loading -/

/-- C4 counterexample: a raw row whose date parses but whose sales field is
non-numeric is retained by the loader, although the claimed rejection
condition says it must be dropped. -/
theorem load_keeps_nonnumeric_row_cex :
    loadClean [badRow] = [badRow] ∧ specRejects badRow = true :=
  ⟨rfl, rfl⟩

/-- C4 (amended): a raw row is dropped iff its date fails to parse; rows
with non-numeric measure fields are retained (carrying NaN), and the
rejected rows are exactly the length difference between the raw and kept
lists. -/
theorem load_rejects_only_bad_dates (rows : List RawRow) :
    (∀ r : RawRow, r ∈ loadClean rows ↔ r ∈ rows ∧ r.dateOK = true)
      ∧ (loadClean rows).length + (rows.filter (fun r => !r.dateOK)).length = rows.length := by
  constructor
  · intro r; simp [loadClean, List.mem_filter]
  · induction rows with
    | nil => rfl
    | cons a rows ih =>
        cases hb : a.dateOK <;>
          simp [loadClean, List.filter_cons, hb] at ih ⊢ <;>
          omega

/-! ## The spec's three-record scenario -/

theorem categoryAgg_exData : categoryAgg exData = [("A", 125), ("B", 50)] := by
  simp [categoryAgg, sortDesc, rollupSales, keysBy, sumSales, exData, mkRec,
    List.insertionSort, List.orderedInsert, salesGE]
  norm_num

/-- C1 counterexample: on the spec's 3-record dataset, after selecting
region "X" with all categories active, the rendered category aggregate is
[("A", 125), ("B", 50)] — the bar chart totals the unfiltered dataset — and
not the [("A", 100), ("B", 50)] the claim requires. -/
theorem categoryAgg_ignores_region_cex :
    (runWorld exData [Event.stateClick "X"]).views.bar.bars = [("A", 125), ("B", 50)]
      ∧ decide (([("A", (125 : ℚ)), ("B", 50)] : List (String × ℚ))
          = [("A", 100), ("B", 50)]) = false := by
  constructor
  · simp [runWorld, initWorld, handle, applyFiltersViews, barView, step, categoryAgg_exData]
  · rfl

theorem mem_filterByCategory (st : DashState) (l : List Record) (r : Record) :
    r ∈ filterByCategory st l
      ↔ r ∈ l ∧ (st.selectedCategory = none ∨ st.selectedCategory = some r.Category) := by
  cases hc : st.selectedCategory with
  | none => simp [filterByCategory, hc]
  | some c =>
      simp only [filterByCategory, hc, List.mem_filter, decide_eq_true_eq,
        Option.some.injEq, reduceCtorEq, false_or]
      exact and_congr_right (fun _ => eq_comm)

theorem mem_filterByState (st : DashState) (l : List Record) (r : Record) :
    r ∈ filterByState st l
      ↔ r ∈ l ∧ (st.selectedState = none ∨ st.selectedState = some r.State) := by
  cases hs : st.selectedState with
  | none => simp [filterByState, hs]
  | some v =>
      simp only [filterByState, hs, List.mem_filter, decide_eq_true_eq,
        Option.some.injEq, reduceCtorEq, false_or]
      exact and_congr_right (fun _ => eq_comm)

/-- C1 (amended): the scatter view's input satisfies the claimed conjunction
(category active or none selected, AND region matching or none selected)
strengthened by a positive-sales condition, while the bar chart's category
aggregate is computed from the full record set regardless of the filter
state: on the 3-record example it stays [("A", 125), ("B", 50)] after
selecting region "X", and also after additionally selecting category "B". -/
theorem filter_semantics_amended :
    (∀ (data : List Record) (st : DashState) (r : Record),
        r ∈ scatterData data st
          ↔ r ∈ data
            ∧ (st.selectedCategory = none ∨ st.selectedCategory = some r.Category)
            ∧ (st.selectedState = none ∨ st.selectedState = some r.State)
            ∧ 0 < r.Sales)
      ∧ (barView exData { selectedCategory := none, selectedState := some "X" }).bars
          = [("A", 125), ("B", 50)]
      ∧ (barView exData { selectedCategory := some "B", selectedState := some "X" }).bars
          = [("A", 125), ("B", 50)] := by
  refine ⟨?_, ?_, ?_⟩
  · intro data st r
    rw [scatterData, List.mem_filter, mem_filterByState, mem_filterByCategory]
    simp [and_assoc]
  · simp [barView, categoryAgg_exData]
  · simp [barView, categoryAgg_exData]

end Dashboard
